import Mathlib

/-!
Verification of the scheduling-and-delivery engine of `bot.py` (a Telegram
task-reminder bot).  The Python source is shallowly embedded below:

* SQLite tables `users`, `tasks`, `sends` become lists inside a `State`
  record; the task table keeps rows in insertion (rowid) order and
  `nextId` models the AUTOINCREMENT counter.
* The Telegram transport (`bot.send_message`) is an external effect; every
  call site of `send_message_job` is instrumented with the logical slot key
  it serves, and success of the i-th attempt is decided by an oracle
  `ok : Nat → Bool` indexed by a running attempt counter (`sendSeq`).
  `send_message_job` swallows exceptions in the source, so control flow
  never depends on the oracle — exactly as in the Python code.
* Wall-clock/timezone lookup (`now_local`) is abstracted as a function
  `clock : String → Int × Nat` from a timezone string to the user-local
  (day, hour), already truncated to the hour as in `hourly_tick`.
* Calendar days are integers (`day - 1` is yesterday), times of day are
  strings, exactly as SQLite stores them.
* An execution trace (`log`) of ghost events records task insertions,
  delivery attempts, successful deliveries, and ledger marks, so temporal
  claims about ordering and at-most-once delivery can be stated.
-/

namespace Bot

/-- A row of the `tasks` table (`SCHEMA` in bot.py). -/
structure Task where
  id : Nat
  user_id : Nat
  title : String
  day : Int
  due_time : Option String
  priority : String
  tags : String
  status : String
deriving Repr, DecidableEq

/-- A row of the `sends` ledger table: the composite primary key
`(user_id, kind, day, hour)`. -/
structure SendKey where
  user_id : Nat
  kind : String
  day : Int
  hour : Nat
deriving Repr, DecidableEq

/-- A row of the `users` table. -/
structure UserRow where
  user_id : Nat
  tz : String
deriving Repr, DecidableEq

/-- Ghost trace events recording what the engine did, in order. -/
inductive Event where
  | attempt (k : SendKey) (text : String)
  | delivered (k : SendKey) (text : String)
  | marked (k : SendKey)
  | inserted (t : Task)
deriving Repr, DecidableEq

/-- The whole persistent state of the bot plus the ghost trace. -/
structure State where
  users : List UserRow
  tasks : List Task
  nextId : Nat
  sends : List SendKey
  sendSeq : Nat
  log : List Event
deriving Repr, DecidableEq

/-- `was_sent` in bot.py: existence check on the `sends` table. -/
def was_sent (s : State) (uid : Nat) (kind : String) (day : Int) (hour : Nat) : Bool :=
  decide ((⟨uid, kind, day, hour⟩ : SendKey) ∈ s.sends)

/-- `mark_sent` in bot.py: `INSERT OR IGNORE` into the `sends` table. -/
def mark_sent (s : State) (uid : Nat) (kind : String) (day : Int) (hour : Nat) : State :=
  let k : SendKey := ⟨uid, kind, day, hour⟩
  { s with
    sends := if k ∈ s.sends then s.sends else s.sends ++ [k]
    log := s.log ++ [Event.marked k] }

/-- `send_message_job` in bot.py: one delivery attempt via the notifier;
a raised exception is caught and logged, so the caller always continues.
The `SendKey` argument is ghost instrumentation naming the logical slot
served by this call site. -/
def send_message_job (ok : Nat → Bool) (s : State) (k : SendKey) (text : String) : State :=
  { s with
    sendSeq := s.sendSeq + 1
    log := s.log ++ Event.attempt k text ::
      (if ok s.sendSeq then [Event.delivered k text] else []) }

/-- `SELECT * FROM tasks WHERE user_id=? AND day=?` (table-scan order). -/
def tasksFor (s : State) (uid : Nat) (day : Int) : List Task :=
  s.tasks.filter (fun t => t.user_id == uid && t.day == day)

/-- `SELECT ... FROM tasks WHERE user_id=? AND day=?-1 AND status='open'`:
yesterday’s still-open tasks, in table-scan order (used both by the digest
display query and by the carry-over query in bot.py). -/
def openYesterday (s : State) (uid : Nat) (day : Int) : List Task :=
  s.tasks.filter (fun t => t.user_id == uid && t.day == (day - 1) && t.status == "open")

/-- `CASE priority WHEN 'high' THEN 0 WHEN 'med' THEN 1 ELSE 2 END`. -/
def priorityRank (p : String) : Nat :=
  if p = "high" then 0 else if p = "med" then 1 else 2

/-- `COALESCE(due_time,'99:99')`. -/
def dueKey (o : Option String) : String :=
  o.getD "99:99"

/-- Character-wise lexicographic comparison: for the codepoint sequences
SQLite stores, this is exactly its `memcmp`-based TEXT ordering (UTF-8
byte order agrees with codepoint order). -/
def strLtb : List Char → List Char → Bool
  | [], [] => false
  | [], _ :: _ => true
  | _ :: _, [] => false
  | a :: as, b :: bs => if a < b then true else if b < a then false else strLtb as bs

/-- SQLite TEXT `<` on strings. -/
def strLT (x y : String) : Prop :=
  strLtb x.data y.data = true

instance (x y : String) : Decidable (strLT x y) := by
  unfold strLT; infer_instance

/-- The ordering realised by the `ORDER BY` clause of `cmd_list` and
`do_daily_digest`: priority rank, then the coalesced due-time string,
with the rowid (insertion order) breaking remaining ties — SQLite scans
the table in rowid order and this models the resulting tie-break. -/
def taskLE (a b : Task) : Prop :=
  priorityRank a.priority < priorityRank b.priority ∨
    (priorityRank a.priority = priorityRank b.priority ∧
      (strLT (dueKey a.due_time) (dueKey b.due_time) ∨
        (dueKey a.due_time = dueKey b.due_time ∧ a.id ≤ b.id)))

instance : DecidableRel taskLE := fun a b => by
  unfold taskLE; infer_instance

/-- `ORDER BY id`. -/
def idLE (a b : Task) : Prop :=
  a.id ≤ b.id

instance : DecidableRel idLE := fun a b => by
  unfold idLE; infer_instance

/-- Rows sorted by `ORDER BY id` (for the digest’s yesterday section). -/
def sortById (l : List Task) : List Task :=
  List.insertionSort idLE l

/-- The task list produced by the shared `ORDER BY` of `cmd_list` and the
digest: `ORDER BY CASE priority ... END, COALESCE(due_time,'99:99')`. -/
def digestRows (s : State) (uid : Nat) (day : Int) : List Task :=
  List.insertionSort taskLE (tasksFor s uid day)

/-- `fmt_task` in bot.py. -/
def fmt_task (t : Task) : String :=
  let pr := if t.priority = "low" then "⬇️"
    else if t.priority = "med" then "⚪"
    else if t.priority = "high" then "⬆️" else "⚪"
  let due := match t.due_time with
    | some d => if d = "" then "" else " @ " ++ d
    | none => ""
  let tags := if t.tags = "" then "" else " " ++ t.tags
  let status := if t.status = "done" then "✅"
    else if t.status = "snoozed" then "😴" else "⬜"
  status ++ " " ++ pr ++ " " ++ t.title ++ due ++ tags ++ " (#" ++ toString t.id ++ ")"

/-- The clone of an open task inserted by `do_carry_over`’s INSERT:
fresh id, same user, today’s date, copied title/due_time/priority/tags,
and the schema defaults `status='open'`. -/
def cloneTask (nid : Nat) (uid : Nat) (day : Int) (r : Task) : Task :=
  { id := nid, user_id := uid, title := r.title, day := day,
    due_time := r.due_time, priority := r.priority, tags := r.tags,
    status := "open" }

/-- The clones produced by the carry-over INSERT loop, with consecutive
AUTOINCREMENT ids starting at `nid`. -/
def clonesFrom (nid : Nat) (uid : Nat) (day : Int) : List Task → List Task
  | [] => []
  | r :: rs => cloneTask nid uid day r :: clonesFrom (nid + 1) uid day rs

/-- The INSERT loop of `do_carry_over`: appends the clones to the task
table, advances the id counter, and records one ghost event per insert. -/
def insertTasks (s : State) (uid : Nat) (day : Int) (rows : List Task) : State :=
  let cs := clonesFrom s.nextId uid day rows
  { s with
    tasks := s.tasks ++ cs
    nextId := s.nextId + rows.length
    log := s.log ++ cs.map Event.inserted }

/-- The text of the carry-over notice. -/
def carryMsg (n : Nat) : String :=
  "↪️ Carried over " ++ toString n ++ " unfinished task(s) from yesterday."

/-- `do_carry_over` in bot.py. -/
def do_carry_over (ok : Nat → Bool) (s : State) (u : UserRow) (day : Int) : State :=
  if was_sent s u.user_id "carry" day 8 then s
  else
    let open_rows := openYesterday s u.user_id day
    let s1 := insertTasks s u.user_id day open_rows
    let s2 := if open_rows.isEmpty then s1
      else send_message_job ok s1 ⟨u.user_id, "carry", day, 8⟩ (carryMsg open_rows.length)
    mark_sent s2 u.user_id "carry" day 8

/-- The digest message text composed by `do_daily_digest`. -/
def digestText (y_open rows : List Task) : String :=
  let sections :=
    (if y_open.isEmpty then []
     else ["⏮️ Yesterday (still open — copied to today):\n" ++
       String.intercalate "\n" (y_open.map fmt_task)]) ++
    [if rows.isEmpty then "☀️ Today:\n(no tasks) — Use /add or /tomorrow to plan."
     else "☀️ Today:\n" ++ String.intercalate "\n" (rows.map fmt_task)]
  String.intercalate "\n\n" sections

/-- `do_daily_digest` in bot.py: guard on hour 8 and the `digest` ledger
key, read yesterday’s open tasks, run carry-over, read today’s ordered
tasks, send the digest, then mark the `digest` key. -/
def do_daily_digest (ok : Nat → Bool) (s : State) (u : UserRow) (day : Int) (hour : Nat) :
    State :=
  if hour ≠ 8 ∨ was_sent s u.user_id "digest" day 8 then s
  else
    let y_open := sortById (openYesterday s u.user_id day)
    let s1 := do_carry_over ok s u day
    let rows := digestRows s1 u.user_id day
    let s2 := send_message_job ok s1 ⟨u.user_id, "digest", day, 8⟩ (digestText y_open rows)
    mark_sent s2 u.user_id "digest" day 8

/-- `do_tomorrow_prompt` in bot.py. -/
def do_tomorrow_prompt (ok : Nat → Bool) (s : State) (u : UserRow) (day : Int) (hour : Nat) :
    State :=
  if hour ∈ [10, 13, 16, 19, 22] ∧ ¬ was_sent s u.user_id "prompt" day hour then
    mark_sent
      (send_message_job ok s ⟨u.user_id, "prompt", day, hour⟩
        "📝 What would you like to add for tomorrow? Use /tomorrow <task>.")
      u.user_id "prompt" day hour
  else s

/-- The per-user body of `hourly_tick`: compute the user’s truncated local
time, then run the digest and prompt decisions. -/
def processUser (ok : Nat → Bool) (clock : String → Int × Nat) (s : State) (u : UserRow) :
    State :=
  let dh := clock u.tz
  do_tomorrow_prompt ok (do_daily_digest ok s u dh.1 dh.2) u dh.1 dh.2

/-- `hourly_tick` in bot.py: snapshot the user table, then process each
user in order. -/
def hourly_tick (ok : Nat → Bool) (clock : String → Int × Nat) (s : State) : State :=
  s.users.foldl (processUser ok clock) s

/-- `n` consecutive tick invocations with the same clock readings (i.e.
all falling in the same logical hour for every user). -/
def run_ticks (ok : Nat → Bool) (clock : String → Int × Nat) : Nat → State → State
  | 0, s => s
  | n + 1, s => run_ticks ok clock n (hourly_tick ok clock s)

/-! ### The command layer (task CRUD reached from chat commands) -/

/-- `get_user` in bot.py: fetch the user row, inserting it with the
default timezone on first interaction.  Returns the updated state and
the row. -/
def get_user (defaultTz : String) (s : State) (uid : Nat) : State × UserRow :=
  match s.users.find? (fun v => v.user_id == uid) with
  | some r => (s, r)
  | none => ({ s with users := s.users ++ [⟨uid, defaultTz⟩] }, ⟨uid, defaultTz⟩)

/-- `set_tz` in bot.py: `INSERT ... ON CONFLICT(user_id) DO UPDATE SET tz`. -/
def set_tz (s : State) (uid : Nat) (tz : String) : State :=
  if s.users.any (fun v => v.user_id == uid) then
    { s with users := s.users.map (fun v => if v.user_id == uid then { v with tz := tz } else v) }
  else
    { s with users := s.users ++ [⟨uid, tz⟩] }

/-- Python’s `tok[1:]`. -/
def strTail (tok : String) : String :=
  String.mk (tok.data.drop 1)

/-- Python’s `str.strip()`: drop leading and trailing whitespace. -/
def strStrip (s : String) : String :=
  String.mk (((s.data.dropWhile Char.isWhitespace).reverse.dropWhile
    Char.isWhitespace).reverse)

/-- One step of the token loop of `parse_task_args`; the accumulator is
`(title words, tag tokens, priority, due_time)`.  A token starts with a
marker character exactly when its first character is that marker. -/
def parseStep (acc : List String × List String × String × Option String) (tok : String) :
    List String × List String × String × Option String :=
  if tok.data.head? = some '#' then (acc.1, acc.2.1 ++ [tok], acc.2.2.1, acc.2.2.2)
  else if tok.data.head? = some '!' then (acc.1, acc.2.1, strTail tok, acc.2.2.2)
  else if tok.data.head? = some '@' then (acc.1, acc.2.1, acc.2.2.1, some (strTail tok))
  else (acc.1 ++ [tok], acc.2.1, acc.2.2.1, acc.2.2.2)

/-- `parse_task_args` in bot.py, over the whitespace-token list produced
by Python’s `args.split()`; returns `(title, tags, priority, due_time)`. -/
def parse_task_args (toks : List String) : String × String × String × Option String :=
  let acc := toks.foldl parseStep ([], [], "med", none)
  (strStrip (String.intercalate " " acc.1), String.intercalate " " acc.2.1,
    acc.2.2.1, acc.2.2.2)

/-- `cmd_add` in bot.py: add a task for today.  `today` is the user-local
date from the clock; `toks` is the tokenised argument string (the empty
list models a missing/empty `command.args`).  Returns the new state and
the reply text. -/
def cmd_add (defaultTz : String) (s : State) (uid : Nat) (today : Int) (toks : List String) :
    State × String :=
  let su := (get_user defaultTz s uid).1
  if toks.isEmpty then (su, "Usage: /add Finish module #study !high @18:00")
  else
    let p := parse_task_args toks
    if p.1 = "" then (su, "Please include a task title. Example: /add Finish module")
    else
      let t : Task := ⟨su.nextId, uid, p.1, today, p.2.2.2, p.2.2.1, p.2.1, "open"⟩
      ({ su with tasks := su.tasks ++ [t], nextId := su.nextId + 1,
                 log := su.log ++ [Event.inserted t] },
       "Added for today: **" ++ p.1 ++ "**")

/-- `cmd_tomorrow` in bot.py: identical to `cmd_add` but dated `today + 1`. -/
def cmd_tomorrow (defaultTz : String) (s : State) (uid : Nat) (today : Int)
    (toks : List String) : State × String :=
  let su := (get_user defaultTz s uid).1
  if toks.isEmpty then (su, "Usage: /tomorrow Gym @07:00")
  else
    let p := parse_task_args toks
    if p.1 = "" then (su, "Please include a task title. Example: /tomorrow Gym")
    else
      let t : Task := ⟨su.nextId, uid, p.1, today + 1, p.2.2.2, p.2.2.1, p.2.1, "open"⟩
      ({ su with tasks := su.tasks ++ [t], nextId := su.nextId + 1,
                 log := su.log ++ [Event.inserted t] },
       "Queued for tomorrow: **" ++ p.1 ++ "**")

/-- `cmd_list` in bot.py: today’s rows under the shared `ORDER BY`. -/
def cmd_list (defaultTz : String) (s : State) (uid : Nat) (today : Int) : State × String :=
  let su := (get_user defaultTz s uid).1
  let rows := digestRows su uid today
  if rows.isEmpty then (su, "No tasks for today. Use /add or the buttons below.")
  else (su, String.intercalate "\n" (rows.map fmt_task))

/-- `cmd_done` in bot.py: `UPDATE tasks SET status='done' WHERE id=?` —
note there is no `user_id` clause, and the reply does not depend on
whether any row matched. -/
def cmd_done (s : State) (uid : Nat) (args : Option String) : State × String :=
  match args with
  | none => (s, "Usage: /done <task_id>")
  | some a =>
    if a.data ≠ [] ∧ a.data.all Char.isDigit then
      let tid := a.data.foldl (fun n c => n * 10 + (c.toNat - 48)) 0
      ({ s with tasks := s.tasks.map (fun t => if t.id = tid then { t with status := "done" } else t) },
       "Nice! Marked ✅")
    else (s, "Usage: /done <task_id>")

/-- `cmd_tz` in bot.py.  `validTz` abstracts `ZoneInfo(...)` raising on an
unknown timezone string (the IANA database is external to the program). -/
def cmd_tz (validTz : String → Bool) (s : State) (uid : Nat) (args : Option String) :
    State × String :=
  match args with
  | none => (s, "Usage: /tz Continent/City  (e.g., /tz America/Los_Angeles)")
  | some a =>
    if validTz a then
      (set_tz s uid a, "Timezone set to " ++ a ++ ". I’ll schedule reminders accordingly.")
    else (s, "That timezone isn’t recognized. Try like America/New_York or Asia/Kathmandu")

/-! ### Storage-failure model for the tick

`hourly_tick` in bot.py has no try/except around the per-user body, so an
exception raised by a storage call while processing one user propagates
out of the `for` loop: effects already committed for earlier users
persist, and the remaining users are not processed in that tick.  The
oracle `fail` says whose first storage read (the `was_sent` query) raises;
the returned flag records whether the tick was aborted by the exception. -/

/-- Per-user step under the failure oracle: if this user’s storage access
raises, the step performs nothing and the exception escapes. -/
def processUserF (fail : Nat → Bool) (ok : Nat → Bool) (clock : String → Int × Nat)
    (s : State) (u : UserRow) : State × Bool :=
  if fail u.user_id then (s, true) else (processUser ok clock s u, false)

/-- The user loop of `hourly_tick` under the failure oracle: stops at the
first user whose step raises. -/
def tickUsersF (fail : Nat → Bool) (ok : Nat → Bool) (clock : String → Int × Nat) :
    State → List UserRow → State × Bool
  | s, [] => (s, false)
  | s, u :: us =>
    let r := processUserF fail ok clock s u
    if r.2 then (r.1, true) else tickUsersF fail ok clock r.1 us

/-- `hourly_tick` under the failure oracle. -/
def hourly_tickF (fail : Nat → Bool) (ok : Nat → Bool) (clock : String → Int × Nat)
    (s : State) : State × Bool :=
  tickUsersF fail ok clock s s.users

/-! ### Counting trace events per logical slot -/

/-- Is this event a delivery attempt for slot `k`? -/
def evAtt (k : SendKey) : Event → Bool
  | Event.attempt j _ => j == k
  | _ => false

/-- Is this event a successful delivery for slot `k`? -/
def evDel (k : SendKey) : Event → Bool
  | Event.delivered j _ => j == k
  | _ => false

/-- Is this event a `mark_sent` execution for slot `k`? -/
def evMark (k : SendKey) : Event → Bool
  | Event.marked j => j == k
  | _ => false

/-- Number of events of the trace satisfying `p`. -/
def countEv (p : Event → Bool) (l : List Event) : Nat :=
  (l.filter p).length

@[simp] theorem countEv_nil (p : Event → Bool) : countEv p [] = 0 := rfl

theorem countEv_append (p : Event → Bool) (l m : List Event) :
    countEv p (l ++ m) = countEv p l + countEv p m := by
  simp [countEv, List.filter_append]

theorem countEv_cons (p : Event → Bool) (e : Event) (l : List Event) :
    countEv p (e :: l) = (if p e then 1 else 0) + countEv p l := by
  by_cases h : p e <;> simp [countEv, List.filter_cons, h, Nat.add_comm]

theorem countEv_eq_zero {p : Event → Bool} {l : List Event}
    (h : ∀ e ∈ l, p e = false) : countEv p l = 0 := by
  simp [countEv, List.filter_eq_nil_iff.2 (by simpa using h)]

theorem countEv_map_inserted (p : Event → Bool) (hp : ∀ t, p (Event.inserted t) = false)
    (cs : List Task) : countEv p (cs.map Event.inserted) = 0 :=
  countEv_eq_zero (by intro e he; obtain ⟨t, -, rfl⟩ := List.mem_map.1 he; exact hp t)

/-! ### Shape lemmas for the scheduled jobs -/

theorem carry_sent (ok : Nat → Bool) (s : State) (u : UserRow) (d : Int)
    (hc : (⟨u.user_id, "carry", d, 8⟩ : SendKey) ∈ s.sends) :
    do_carry_over ok s u d = s := by
  simp [do_carry_over, was_sent, hc]

/-- The sent-message block appended to the trace by the carry-over notice. -/
def carryBlock (ok : Nat → Bool) (s : State) (u : UserRow) (d : Int) : List Event :=
  if (openYesterday s u.user_id d).isEmpty then []
  else
    Event.attempt ⟨u.user_id, "carry", d, 8⟩ (carryMsg (openYesterday s u.user_id d).length) ::
      (if ok s.sendSeq then
        [Event.delivered ⟨u.user_id, "carry", d, 8⟩
          (carryMsg (openYesterday s u.user_id d).length)]
      else [])

theorem carry_shape (ok : Nat → Bool) (s : State) (u : UserRow) (d : Int)
    (hc : (⟨u.user_id, "carry", d, 8⟩ : SendKey) ∉ s.sends) :
    (do_carry_over ok s u d).users = s.users ∧
    (do_carry_over ok s u d).tasks =
      s.tasks ++ clonesFrom s.nextId u.user_id d (openYesterday s u.user_id d) ∧
    (do_carry_over ok s u d).nextId = s.nextId + (openYesterday s u.user_id d).length ∧
    (do_carry_over ok s u d).sends = s.sends ++ [⟨u.user_id, "carry", d, 8⟩] ∧
    (do_carry_over ok s u d).sendSeq =
      s.sendSeq + (if (openYesterday s u.user_id d).isEmpty then 0 else 1) ∧
    (do_carry_over ok s u d).log =
      s.log ++ (clonesFrom s.nextId u.user_id d (openYesterday s u.user_id d)).map
        Event.inserted ++ carryBlock ok s u d ++ [Event.marked ⟨u.user_id, "carry", d, 8⟩] := by
  by_cases he : (openYesterday s u.user_id d).isEmpty <;>
    by_cases hok : ok s.sendSeq <;>
    simp [do_carry_over, was_sent, hc, insertTasks, send_message_job, mark_sent,
      carryBlock, he, hok]

theorem digest_skip_hour (ok : Nat → Bool) (s : State) (u : UserRow) (d : Int) (h : Nat)
    (hh : h ≠ 8) : do_daily_digest ok s u d h = s := by
  simp [do_daily_digest, hh]

theorem digest_sent (ok : Nat → Bool) (s : State) (u : UserRow) (d : Int) (h : Nat)
    (hs : (⟨u.user_id, "digest", d, 8⟩ : SendKey) ∈ s.sends) :
    do_daily_digest ok s u d h = s := by
  simp [do_daily_digest, was_sent, hs]

theorem digest_shape (ok : Nat → Bool) (s : State) (u : UserRow) (d : Int)
    (hs : (⟨u.user_id, "digest", d, 8⟩ : SendKey) ∉ s.sends) :
    do_daily_digest ok s u d 8 =
      mark_sent
        (send_message_job ok (do_carry_over ok s u d) ⟨u.user_id, "digest", d, 8⟩
          (digestText (sortById (openYesterday s u.user_id d))
            (digestRows (do_carry_over ok s u d) u.user_id d)))
        u.user_id "digest" d 8 := by
  simp [do_daily_digest, was_sent, hs]

theorem prompt_skip_hour (ok : Nat → Bool) (s : State) (u : UserRow) (d : Int) (h : Nat)
    (hh : h ∉ [10, 13, 16, 19, 22]) : do_tomorrow_prompt ok s u d h = s := by
  simp [do_tomorrow_prompt, hh]

theorem prompt_sent (ok : Nat → Bool) (s : State) (u : UserRow) (d : Int) (h : Nat)
    (hs : (⟨u.user_id, "prompt", d, h⟩ : SendKey) ∈ s.sends) :
    do_tomorrow_prompt ok s u d h = s := by
  simp [do_tomorrow_prompt, was_sent, hs]

theorem prompt_shape (ok : Nat → Bool) (s : State) (u : UserRow) (d : Int) (h : Nat)
    (hh : h ∈ [10, 13, 16, 19, 22])
    (hs : (⟨u.user_id, "prompt", d, h⟩ : SendKey) ∉ s.sends) :
    do_tomorrow_prompt ok s u d h =
      mark_sent
        (send_message_job ok s ⟨u.user_id, "prompt", d, h⟩
          "📝 What would you like to add for tomorrow? Use /tomorrow <task>.")
        u.user_id "prompt" d h := by
  simp [do_tomorrow_prompt, was_sent, hh, hs]

theorem mark_sent_log (s : State) (uid : Nat) (kind : String) (d : Int) (h : Nat) :
    (mark_sent s uid kind d h).log = s.log ++ [Event.marked ⟨uid, kind, d, h⟩] := rfl

theorem mark_sent_mem (s : State) (uid : Nat) (kind : String) (d : Int) (h : Nat)
    (k : SendKey) :
    k ∈ (mark_sent s uid kind d h).sends ↔ k ∈ s.sends ∨ k = ⟨uid, kind, d, h⟩ := by
  by_cases hm : (⟨uid, kind, d, h⟩ : SendKey) ∈ s.sends
  · simp only [mark_sent]
    rw [if_pos hm]
    constructor
    · exact Or.inl
    · rintro (hk | rfl)
      · exact hk
      · exact hm
  · simp only [mark_sent]
    rw [if_neg hm]
    simp

theorem mark_sent_tasks (s : State) (uid : Nat) (kind : String) (d : Int) (h : Nat) :
    (mark_sent s uid kind d h).tasks = s.tasks := rfl

theorem mark_sent_users (s : State) (uid : Nat) (kind : String) (d : Int) (h : Nat) :
    (mark_sent s uid kind d h).users = s.users := rfl

theorem send_log (ok : Nat → Bool) (s : State) (k : SendKey) (text : String) :
    (send_message_job ok s k text).log =
      s.log ++ Event.attempt k text ::
        (if ok s.sendSeq then [Event.delivered k text] else []) := rfl

theorem send_sends (ok : Nat → Bool) (s : State) (k : SendKey) (text : String) :
    (send_message_job ok s k text).sends = s.sends := rfl

theorem send_tasks (ok : Nat → Bool) (s : State) (k : SendKey) (text : String) :
    (send_message_job ok s k text).tasks = s.tasks := rfl

@[simp] theorem evAtt_attempt (k j : SendKey) (t : String) :
    evAtt k (Event.attempt j t) = (j == k) := rfl

@[simp] theorem evAtt_delivered (k j : SendKey) (t : String) :
    evAtt k (Event.delivered j t) = false := rfl

@[simp] theorem evAtt_marked (k j : SendKey) : evAtt k (Event.marked j) = false := rfl

@[simp] theorem evAtt_inserted (k : SendKey) (t : Task) :
    evAtt k (Event.inserted t) = false := rfl

@[simp] theorem evDel_attempt (k j : SendKey) (t : String) :
    evDel k (Event.attempt j t) = false := rfl

@[simp] theorem evDel_delivered (k j : SendKey) (t : String) :
    evDel k (Event.delivered j t) = (j == k) := rfl

@[simp] theorem evDel_marked (k j : SendKey) : evDel k (Event.marked j) = false := rfl

@[simp] theorem evDel_inserted (k : SendKey) (t : Task) :
    evDel k (Event.inserted t) = false := rfl

@[simp] theorem evMark_attempt (k j : SendKey) (t : String) :
    evMark k (Event.attempt j t) = false := rfl

@[simp] theorem evMark_delivered (k j : SendKey) (t : String) :
    evMark k (Event.delivered j t) = false := rfl

@[simp] theorem evMark_marked (k j : SendKey) : evMark k (Event.marked j) = (j == k) := rfl

@[simp] theorem evMark_inserted (k : SendKey) (t : Task) :
    evMark k (Event.inserted t) = false := rfl

/-- The at-most-once invariant for the logical slot `k`: the trace holds
at most one attempt, at most one delivery and at most one `mark_sent`
execution for `k`, and if it holds any of them then `k` is in the ledger. -/
def keyInv (k : SendKey) (s : State) : Prop :=
  countEv (evAtt k) s.log ≤ 1 ∧ countEv (evDel k) s.log ≤ 1 ∧
  countEv (evMark k) s.log ≤ 1 ∧
  ((countEv (evAtt k) s.log ≠ 0 ∨ countEv (evDel k) s.log ≠ 0 ∨
      countEv (evMark k) s.log ≠ 0) → k ∈ s.sends)

theorem keyInv_zero_of_not_mem {k : SendKey} {s : State} (h : keyInv k s)
    (hm : k ∉ s.sends) :
    countEv (evAtt k) s.log = 0 ∧ countEv (evDel k) s.log = 0 ∧
    countEv (evMark k) s.log = 0 := by
  refine ⟨?_, ?_, ?_⟩ <;> by_contra hx
  · exact hm (h.2.2.2 (Or.inl hx))
  · exact hm (h.2.2.2 (Or.inr (Or.inl hx)))
  · exact hm (h.2.2.2 (Or.inr (Or.inr hx)))

theorem keyInv_send_ne {k : SendKey} {s : State} (ok : Nat → Bool) (j : SendKey)
    (txt : String) (h : keyInv k s) (hk : k ≠ j) :
    keyInv k (send_message_job ok s j txt) := by
  obtain ⟨h1, h2, h3, h4⟩ := h
  have hj : (j == k) = false := by simp [Ne.symm hk]
  refine ⟨?_, ?_, ?_, ?_⟩ <;>
    by_cases hok : ok s.sendSeq <;>
    simp only [send_log, send_sends, countEv_append, countEv_cons, countEv_nil,
      hok, if_true, if_false, evAtt_attempt, evDel_attempt, evAtt_delivered,
      evDel_delivered, evMark_attempt, evMark_delivered, hj] <;>
    simp <;> first
      | omega
      | (intro hx; exact h4 (by simpa using hx))

theorem keyInv_mark_ne {k : SendKey} {s : State} (uid : Nat) (kind : String) (d : Int)
    (hr : Nat) (h : keyInv k s) (hk : k ≠ ⟨uid, kind, d, hr⟩) :
    keyInv k (mark_sent s uid kind d hr) := by
  obtain ⟨h1, h2, h3, h4⟩ := h
  have hj : ((⟨uid, kind, d, hr⟩ : SendKey) == k) = false := by simp [Ne.symm hk]
  refine ⟨?_, ?_, ?_, ?_⟩ <;>
    simp only [mark_sent_log, countEv_append, countEv_cons, countEv_nil,
      evAtt_marked, evDel_marked, evMark_marked, hj, if_false, mark_sent_mem]
  · simpa using h1
  · simpa using h2
  · simpa using h3
  · intro hx
    exact Or.inl (h4 (by simpa using hx))

theorem keyInv_send_mark_self (ok : Nat → Bool) (s : State) (uid : Nat) (kind : String)
    (d : Int) (hr : Nat) (txt : String)
    (hz : countEv (evAtt ⟨uid, kind, d, hr⟩) s.log = 0 ∧
      countEv (evDel ⟨uid, kind, d, hr⟩) s.log = 0 ∧
      countEv (evMark ⟨uid, kind, d, hr⟩) s.log = 0) :
    keyInv ⟨uid, kind, d, hr⟩
      (mark_sent (send_message_job ok s ⟨uid, kind, d, hr⟩ txt) uid kind d hr) := by
  obtain ⟨z1, z2, z3⟩ := hz
  refine ⟨?_, ?_, ?_, fun _ => ?_⟩
  · by_cases hok : ok s.sendSeq <;>
      simp [mark_sent_log, send_log, countEv_append, countEv_cons, hok, z1, countEv_nil]
  · by_cases hok : ok s.sendSeq <;>
      simp [mark_sent_log, send_log, countEv_append, countEv_cons, hok, z2, countEv_nil]
  · by_cases hok : ok s.sendSeq <;>
      simp [mark_sent_log, send_log, countEv_append, countEv_cons, hok, z3, countEv_nil]
  · exact (mark_sent_mem _ _ _ _ _ _).2 (Or.inr rfl)

theorem carry_counts_ne (ok : Nat → Bool) (s : State) (u : UserRow) (d : Int) (k : SendKey)
    (hk : k ≠ ⟨u.user_id, "carry", d, 8⟩) :
    countEv (evAtt k) (do_carry_over ok s u d).log = countEv (evAtt k) s.log ∧
    countEv (evDel k) (do_carry_over ok s u d).log = countEv (evDel k) s.log ∧
    countEv (evMark k) (do_carry_over ok s u d).log = countEv (evMark k) s.log := by
  by_cases hc : (⟨u.user_id, "carry", d, 8⟩ : SendKey) ∈ s.sends
  · rw [carry_sent ok s u d hc]
    exact ⟨rfl, rfl, rfl⟩
  · obtain ⟨-, -, -, -, -, hl⟩ := carry_shape ok s u d hc
    have hj : ((⟨u.user_id, "carry", d, 8⟩ : SendKey) == k) = false := by simp [Ne.symm hk]
    rw [hl]
    by_cases he : (openYesterday s u.user_id d).isEmpty <;>
      by_cases hok : ok s.sendSeq <;>
      simp [countEv_append, countEv_cons, carryBlock, he, hok, hj,
        countEv_map_inserted (evAtt k) (fun t => rfl),
        countEv_map_inserted (evDel k) (fun t => rfl),
        countEv_map_inserted (evMark k) (fun t => rfl)]

theorem carry_mem_mono (ok : Nat → Bool) (s : State) (u : UserRow) (d : Int) (k : SendKey)
    (hm : k ∈ s.sends) : k ∈ (do_carry_over ok s u d).sends := by
  by_cases hc : (⟨u.user_id, "carry", d, 8⟩ : SendKey) ∈ s.sends
  · rw [carry_sent ok s u d hc]; exact hm
  · obtain ⟨-, -, -, hs, -, -⟩ := carry_shape ok s u d hc
    rw [hs]; exact List.mem_append_left _ hm

theorem keyInv_carry (ok : Nat → Bool) (s : State) (u : UserRow) (d : Int) (k : SendKey)
    (h : keyInv k s) : keyInv k (do_carry_over ok s u d) := by
  by_cases hc : (⟨u.user_id, "carry", d, 8⟩ : SendKey) ∈ s.sends
  · rw [carry_sent ok s u d hc]; exact h
  · by_cases hk : k = ⟨u.user_id, "carry", d, 8⟩
    · subst hk
      obtain ⟨z1, z2, z3⟩ := keyInv_zero_of_not_mem h hc
      obtain ⟨-, -, -, hs, -, hl⟩ := carry_shape ok s u d hc
      refine ⟨?_, ?_, ?_, fun _ => ?_⟩
      · rw [hl]
        by_cases he : (openYesterday s u.user_id d).isEmpty <;>
          by_cases hok : ok s.sendSeq <;>
          simp [countEv_append, countEv_cons, carryBlock, he, hok, z1,
            countEv_map_inserted (evAtt _) (fun t => rfl)]
      · rw [hl]
        by_cases he : (openYesterday s u.user_id d).isEmpty <;>
          by_cases hok : ok s.sendSeq <;>
          simp [countEv_append, countEv_cons, carryBlock, he, hok, z2,
            countEv_map_inserted (evDel _) (fun t => rfl)]
      · rw [hl]
        by_cases he : (openYesterday s u.user_id d).isEmpty <;>
          by_cases hok : ok s.sendSeq <;>
          simp [countEv_append, countEv_cons, carryBlock, he, hok, z3,
            countEv_map_inserted (evMark _) (fun t => rfl)]
      · rw [hs]; simp
    · obtain ⟨c1, c2, c3⟩ := carry_counts_ne ok s u d k hk
      obtain ⟨h1, h2, h3, h4⟩ := h
      refine ⟨by rw [c1]; exact h1, by rw [c2]; exact h2, by rw [c3]; exact h3, fun hx => ?_⟩
      rw [c1, c2, c3] at hx
      exact carry_mem_mono ok s u d k (h4 hx)

theorem digest_ne_carry (uid : Nat) (d : Int) :
    (⟨uid, "digest", d, 8⟩ : SendKey) ≠ ⟨uid, "carry", d, 8⟩ := by
  simp

theorem keyInv_digest (ok : Nat → Bool) (s : State) (u : UserRow) (d : Int) (hr : Nat)
    (k : SendKey) (h : keyInv k s) : keyInv k (do_daily_digest ok s u d hr) := by
  by_cases h8 : hr = 8
  · subst h8
    by_cases hd : (⟨u.user_id, "digest", d, 8⟩ : SendKey) ∈ s.sends
    · rw [digest_sent ok s u d 8 hd]; exact h
    · rw [digest_shape ok s u d hd]
      by_cases hk : k = ⟨u.user_id, "digest", d, 8⟩
      · subst hk
        obtain ⟨z1, z2, z3⟩ := keyInv_zero_of_not_mem h hd
        obtain ⟨c1, c2, c3⟩ :=
          carry_counts_ne ok s u d _ (digest_ne_carry u.user_id d)
        exact keyInv_send_mark_self ok (do_carry_over ok s u d) u.user_id "digest" d 8 _
          ⟨by rw [c1]; exact z1, by rw [c2]; exact z2, by rw [c3]; exact z3⟩
      · exact keyInv_mark_ne _ _ _ _
          (keyInv_send_ne ok _ _ (keyInv_carry ok s u d k h) hk) hk
  · rw [digest_skip_hour ok s u d hr h8]; exact h

theorem keyInv_prompt (ok : Nat → Bool) (s : State) (u : UserRow) (d : Int) (hr : Nat)
    (k : SendKey) (h : keyInv k s) : keyInv k (do_tomorrow_prompt ok s u d hr) := by
  by_cases hh : hr ∈ [10, 13, 16, 19, 22]
  · by_cases hp : (⟨u.user_id, "prompt", d, hr⟩ : SendKey) ∈ s.sends
    · rw [prompt_sent ok s u d hr hp]; exact h
    · rw [prompt_shape ok s u d hr hh hp]
      by_cases hk : k = ⟨u.user_id, "prompt", d, hr⟩
      · subst hk
        exact keyInv_send_mark_self ok s u.user_id "prompt" d hr _
          (keyInv_zero_of_not_mem h hp)
      · exact keyInv_mark_ne _ _ _ _ (keyInv_send_ne ok _ _ h hk) hk
  · rw [prompt_skip_hour ok s u d hr hh]; exact h

theorem keyInv_processUser (ok : Nat → Bool) (clock : String → Int × Nat) (s : State)
    (u : UserRow) (k : SendKey) (h : keyInv k s) : keyInv k (processUser ok clock s u) :=
  keyInv_prompt ok _ u _ _ k (keyInv_digest ok s u _ _ k h)

theorem keyInv_foldl (ok : Nat → Bool) (clock : String → Int × Nat) (k : SendKey) :
    ∀ (us : List UserRow) (s : State), keyInv k s →
      keyInv k (us.foldl (processUser ok clock) s)
  | [], _, h => h
  | u :: us, s, h =>
    keyInv_foldl ok clock k us (processUser ok clock s u)
      (keyInv_processUser ok clock s u k h)

theorem keyInv_tick (ok : Nat → Bool) (clock : String → Int × Nat) (s : State)
    (k : SendKey) (h : keyInv k s) : keyInv k (hourly_tick ok clock s) :=
  keyInv_foldl ok clock k s.users s h

theorem keyInv_run_ticks (ok : Nat → Bool) (clock : String → Int × Nat) (k : SendKey) :
    ∀ (n : Nat) (s : State), keyInv k s → keyInv k (run_ticks ok clock n s)
  | 0, _, h => h
  | n + 1, s, h =>
    keyInv_run_ticks ok clock k n (hourly_tick ok clock s) (keyInv_tick ok clock s k h)

/-! ### Concrete fixtures for witnesses and counterexamples -/

/-- An open task of user 1 dated yesterday (relative to day 0). -/
def exTask1 : Task := ⟨1, 1, "Buy milk", -1, none, "med", "", "open"⟩

/-- A state with one user and one open task from yesterday. -/
def exState : State := ⟨[⟨1, "America/New_York"⟩], [exTask1], 2, [], 0, []⟩

/-- A clock putting every user at local (day 0, 08:00). -/
def exClock8 : String → Int × Nat := fun _ => (0, 8)

/-- A clock putting every user at local (day 0, 13:00). -/
def exClock13 : String → Int × Nat := fun _ => (0, 13)

/-- The always-succeeding notifier. -/
def okTrue : Nat → Bool := fun _ => true

/-- The always-failing notifier. -/
def okFalse : Nat → Bool := fun _ => false

/-! ### C1 -/

/-- C1: at-most-once send.  For every fixed `(user_id, kind, day, hour)`
slot `k`, any number `n` of repeated `hourly_tick` invocations whose
clock readings stay in the same logical hour produce at most one
`mark_sent` execution for `k` and at most one delivered message for `k`
(here proved under the claim’s non-failing-notifier assumption; the trace
starts empty). -/
theorem at_most_once_send (ok : Nat → Bool) (clock : String → Int × Nat) (n : Nat)
    (s : State) (k : SendKey) (hok : ∀ i, ok i = true) (hlog : s.log = []) :
    countEv (evDel k) (run_ticks ok clock n s).log ≤ 1 ∧
    countEv (evMark k) (run_ticks ok clock n s).log ≤ 1 := by
  have h0 : keyInv k s := by
    rw [keyInv, hlog]; simp
  have h := keyInv_run_ticks ok clock k n s h0
  exact ⟨h.2.1, h.2.2.1⟩

/-- Witness for C1 at a concrete input: one user at their digest hour,
three ticks in the same hour. -/
theorem at_most_once_send_witness :
    (∀ i, okTrue i = true) ∧ exState.log = [] ∧
    (countEv (evDel ⟨1, "digest", 0, 8⟩)
        (run_ticks okTrue exClock8 3 exState).log ≤ 1 ∧
      countEv (evMark ⟨1, "digest", 0, 8⟩)
        (run_ticks okTrue exClock8 3 exState).log ≤ 1) :=
  ⟨fun _ => rfl, rfl,
    at_most_once_send okTrue exClock8 3 exState ⟨1, "digest", 0, 8⟩ (fun _ => rfl) rfl⟩

/-! ### C2 -/

theorem clonesFrom_length (uid : Nat) (d : Int) :
    ∀ (n : Nat) (l : List Task), (clonesFrom n uid d l).length = l.length
  | _, [] => rfl
  | n, _ :: rs => by simp [clonesFrom, clonesFrom_length uid d (n + 1) rs]

theorem clonesFrom_map_id (uid : Nat) (d : Int) :
    ∀ (n : Nat) (l : List Task),
      (clonesFrom n uid d l).map Task.id = List.range' n l.length
  | _, [] => rfl
  | n, _ :: rs => by
    simp [clonesFrom, cloneTask, List.range'_succ, clonesFrom_map_id uid d (n + 1) rs]

theorem clonesFrom_mem (uid : Nat) (d : Int) :
    ∀ (n : Nat) (l : List Task) (c : Task), c ∈ clonesFrom n uid d l →
      c.user_id = uid ∧ c.day = d ∧ c.status = "open"
  | _, [], _, h => absurd h (List.not_mem_nil _)
  | n, r :: rs, c, h => by
    rcases List.mem_cons.1 h with rfl | h2
    · exact ⟨rfl, rfl, rfl⟩
    · exact clonesFrom_mem uid d (n + 1) rs c h2

theorem clonesFrom_forall₂ (uid : Nat) (d : Int) :
    ∀ (n : Nat) (l : List Task),
      List.Forall₂ (fun src c => c.title = src.title ∧ c.due_time = src.due_time ∧
        c.priority = src.priority ∧ c.tags = src.tags ∧ c.status = "open" ∧
        c.day = d ∧ c.user_id = uid) l (clonesFrom n uid d l)
  | _, [] => List.Forall₂.nil
  | n, r :: rs =>
    List.Forall₂.cons ⟨rfl, rfl, rfl, rfl, rfl, rfl, rfl⟩
      (clonesFrom_forall₂ uid d (n + 1) rs)

/-- C2: carry-over correctness.  If the carry key for `(u, d)` is not yet
in the ledger (so the copy runs) and the AUTOINCREMENT counter dominates
every existing id, then after `do_carry_over`: today holds its previous
M tasks plus N new ones (N = yesterday’s open count), yesterday’s rows —
in particular its open rows — are completely unchanged, and each new task
is a fresh-id, open copy of its source dated today, preserving
title, due_time, priority and tags. -/
theorem carry_over_correct (ok : Nat → Bool) (s : State) (u : UserRow) (d : Int)
    (hc : (⟨u.user_id, "carry", d, 8⟩ : SendKey) ∉ s.sends)
    (hid : ∀ t ∈ s.tasks, t.id < s.nextId) :
    ∃ cs,
      (do_carry_over ok s u d).tasks = s.tasks ++ cs ∧
      tasksFor (do_carry_over ok s u d) u.user_id d = tasksFor s u.user_id d ++ cs ∧
      (tasksFor (do_carry_over ok s u d) u.user_id d).length =
        (tasksFor s u.user_id d).length + (openYesterday s u.user_id d).length ∧
      tasksFor (do_carry_over ok s u d) u.user_id (d - 1) =
        tasksFor s u.user_id (d - 1) ∧
      openYesterday (do_carry_over ok s u d) u.user_id d =
        openYesterday s u.user_id d ∧
      List.Forall₂ (fun src c => c.title = src.title ∧ c.due_time = src.due_time ∧
        c.priority = src.priority ∧ c.tags = src.tags ∧ c.status = "open" ∧
        c.day = d ∧ c.user_id = u.user_id) (openYesterday s u.user_id d) cs ∧
      cs.map Task.id = List.range' s.nextId (openYesterday s u.user_id d).length ∧
      ∀ c ∈ cs, ∀ t ∈ s.tasks, c.id ≠ t.id := by
  obtain ⟨-, ht, -, -, -, -⟩ := carry_shape ok s u d hc
  refine ⟨clonesFrom s.nextId u.user_id d (openYesterday s u.user_id d),
    ht, ?_, ?_, ?_, ?_, clonesFrom_forall₂ u.user_id d s.nextId _,
    clonesFrom_map_id u.user_id d s.nextId _, ?_⟩
  · rw [tasksFor, ht, List.filter_append]
    have hcs : (clonesFrom s.nextId u.user_id d (openYesterday s u.user_id d)).filter
        (fun t => t.user_id == u.user_id && t.day == d) =
        clonesFrom s.nextId u.user_id d (openYesterday s u.user_id d) := by
      refine List.filter_eq_self.2 (fun c hcm => ?_)
      obtain ⟨h1, h2, -⟩ := clonesFrom_mem u.user_id d s.nextId _ c hcm
      simp [h1, h2]
    rw [hcs]; rfl
  · rw [tasksFor, ht, List.filter_append]
    have hcs : (clonesFrom s.nextId u.user_id d (openYesterday s u.user_id d)).filter
        (fun t => t.user_id == u.user_id && t.day == d) =
        clonesFrom s.nextId u.user_id d (openYesterday s u.user_id d) := by
      refine List.filter_eq_self.2 (fun c hcm => ?_)
      obtain ⟨h1, h2, -⟩ := clonesFrom_mem u.user_id d s.nextId _ c hcm
      simp [h1, h2]
    rw [hcs, List.length_append, clonesFrom_length]; rfl
  · rw [tasksFor, ht, List.filter_append]
    have hcs : (clonesFrom s.nextId u.user_id d (openYesterday s u.user_id d)).filter
        (fun t => t.user_id == u.user_id && t.day == (d - 1)) = [] := by
      refine List.filter_eq_nil_iff.2 (fun c hcm => ?_)
      obtain ⟨-, h2, -⟩ := clonesFrom_mem u.user_id d s.nextId _ c hcm
      have : c.day ≠ d - 1 := by rw [h2]; omega
      simp [this]
    rw [hcs, List.append_nil]; rfl
  · rw [openYesterday, ht, List.filter_append]
    have hcs : (clonesFrom s.nextId u.user_id d (openYesterday s u.user_id d)).filter
        (fun t => t.user_id == u.user_id && t.day == (d - 1) && t.status == "open") = [] := by
      refine List.filter_eq_nil_iff.2 (fun c hcm => ?_)
      obtain ⟨-, h2, -⟩ := clonesFrom_mem u.user_id d s.nextId _ c hcm
      have : c.day ≠ d - 1 := by rw [h2]; omega
      simp [this]
    rw [hcs, List.append_nil]; rfl
  · intro c hcm t htm
    have hcid : c.id ∈ (clonesFrom s.nextId u.user_id d
        (openYesterday s u.user_id d)).map Task.id :=
      List.mem_map_of_mem Task.id hcm
    rw [clonesFrom_map_id] at hcid
    obtain ⟨i, -, hi⟩ := List.mem_range'.1 hcid
    have := hid t htm
    omega

/-- Witness for C2: the example state has one open task yesterday and no
tasks today; the copy produces exactly one fresh open clone. -/
theorem carry_over_correct_witness :
    ((⟨1, "carry", 0, 8⟩ : SendKey) ∉ exState.sends) ∧
    (∀ t ∈ exState.tasks, t.id < exState.nextId) ∧
    (∃ cs,
      (do_carry_over okTrue exState ⟨1, "America/New_York"⟩ 0).tasks =
        exState.tasks ++ cs ∧
      tasksFor (do_carry_over okTrue exState ⟨1, "America/New_York"⟩ 0) 1 0 =
        tasksFor exState 1 0 ++ cs ∧
      (tasksFor (do_carry_over okTrue exState ⟨1, "America/New_York"⟩ 0) 1 0).length =
        (tasksFor exState 1 0).length + (openYesterday exState 1 0).length ∧
      tasksFor (do_carry_over okTrue exState ⟨1, "America/New_York"⟩ 0) 1 (0 - 1) =
        tasksFor exState 1 (0 - 1) ∧
      openYesterday (do_carry_over okTrue exState ⟨1, "America/New_York"⟩ 0) 1 0 =
        openYesterday exState 1 0 ∧
      List.Forall₂ (fun src c => c.title = src.title ∧ c.due_time = src.due_time ∧
        c.priority = src.priority ∧ c.tags = src.tags ∧ c.status = "open" ∧
        c.day = 0 ∧ c.user_id = 1) (openYesterday exState 1 0) cs ∧
      cs.map Task.id = List.range' exState.nextId (openYesterday exState 1 0).length ∧
      ∀ c ∈ cs, ∀ t ∈ exState.tasks, c.id ≠ t.id) :=
  ⟨by decide, by decide,
    carry_over_correct okTrue exState ⟨1, "America/New_York"⟩ 0 (by decide) (by decide)⟩

/-! ### C5 -/

/-- C5: carry-over idempotence across retries.  Running the digest-hour
logic for a user whose digest and carry keys are both unmarked performs
exactly one set of carried-over copies and marks the carry key; a second
invocation in the same logical (date, hour) — with any notifier — leaves
the state completely unchanged, and in particular the carry-over guard
alone also finds the carry key present and performs no insertion. -/
theorem carry_idempotent (ok ok2 : Nat → Bool) (s : State) (u : UserRow) (d : Int)
    (hd : (⟨u.user_id, "digest", d, 8⟩ : SendKey) ∉ s.sends)
    (hc : (⟨u.user_id, "carry", d, 8⟩ : SendKey) ∉ s.sends) :
    (do_daily_digest ok s u d 8).tasks =
      s.tasks ++ clonesFrom s.nextId u.user_id d (openYesterday s u.user_id d) ∧
    (⟨u.user_id, "carry", d, 8⟩ : SendKey) ∈ (do_daily_digest ok s u d 8).sends ∧
    do_daily_digest ok2 (do_daily_digest ok s u d 8) u d 8 =
      do_daily_digest ok s u d 8 ∧
    do_carry_over ok2 (do_daily_digest ok s u d 8) u d =
      do_daily_digest ok s u d 8 := by
  obtain ⟨-, ht, -, hs, -, -⟩ := carry_shape ok s u d hc
  have hck : (⟨u.user_id, "carry", d, 8⟩ : SendKey) ∈
      (do_daily_digest ok s u d 8).sends := by
    rw [digest_shape ok s u d hd]
    exact (mark_sent_mem _ _ _ _ _ _).2 (Or.inl (by rw [send_sends, hs]; simp))
  have hdk : (⟨u.user_id, "digest", d, 8⟩ : SendKey) ∈
      (do_daily_digest ok s u d 8).sends := by
    rw [digest_shape ok s u d hd]
    exact (mark_sent_mem _ _ _ _ _ _).2 (Or.inr rfl)
  refine ⟨?_, hck, digest_sent ok2 _ u d 8 hdk, carry_sent ok2 _ u d hck⟩
  rw [digest_shape ok s u d hd, mark_sent_tasks, send_tasks, ht]

/-- Witness for C5 at the concrete example state. -/
theorem carry_idempotent_witness :
    ((⟨1, "digest", 0, 8⟩ : SendKey) ∉ exState.sends) ∧
    ((⟨1, "carry", 0, 8⟩ : SendKey) ∉ exState.sends) ∧
    ((do_daily_digest okTrue exState ⟨1, "America/New_York"⟩ 0 8).tasks =
      exState.tasks ++ clonesFrom exState.nextId 1 0 (openYesterday exState 1 0) ∧
    (⟨1, "carry", 0, 8⟩ : SendKey) ∈
      (do_daily_digest okTrue exState ⟨1, "America/New_York"⟩ 0 8).sends ∧
    do_daily_digest okTrue (do_daily_digest okTrue exState ⟨1, "America/New_York"⟩ 0 8)
        ⟨1, "America/New_York"⟩ 0 8 =
      do_daily_digest okTrue exState ⟨1, "America/New_York"⟩ 0 8 ∧
    do_carry_over okTrue (do_daily_digest okTrue exState ⟨1, "America/New_York"⟩ 0 8)
        ⟨1, "America/New_York"⟩ 0 =
      do_daily_digest okTrue exState ⟨1, "America/New_York"⟩ 0 8) :=
  ⟨by decide, by decide,
    carry_idempotent okTrue okTrue exState ⟨1, "America/New_York"⟩ 0 (by decide) (by decide)⟩

/-! ### C4 -/

/-- Is this event a notification attempt (for any slot)? -/
def isAttempt : Event → Bool
  | Event.attempt _ _ => true
  | _ => false

/-- Formalisation of C4’s wording on a trace: the `mark_sent` event for
slot `k` precedes every notification attempt, i.e. no attempt occurs
strictly before the mark. -/
def markBeforeSends (l : List Event) (k : SendKey) : Prop :=
  ∀ e ∈ l.takeWhile (fun e => e != Event.marked k), isAttempt e = false

instance (l : List Event) (k : SendKey) : Decidable (markBeforeSends l k) := by
  unfold markBeforeSends; infer_instance

/-- Counterexample to C4: at the concrete example state the carry-over
copy is performed (one task copied), yet the carry notification attempt
occurs strictly before `mark_sent` of the "carry" key — the code sends
the notice first and marks the ledger afterwards. -/
theorem carry_mark_counterexample :
    (openYesterday exState 1 0).length = 1 ∧
    (do_carry_over okTrue exState ⟨1, "America/New_York"⟩ 0).tasks.length = 2 ∧
    ¬ markBeforeSends (do_carry_over okTrue exState ⟨1, "America/New_York"⟩ 0).log
        ⟨1, "carry", 0, 8⟩ := by
  decide

/-- C4 amended: whenever the carry-over executes its copy with at least
one task carried, `mark_sent` for the carry key is the last step —
invoked after the copy completes and after the carry notification is
attempted (not before any notification, as originally claimed); the
events preceding it are exactly the task inserts and the notification
attempt/delivery. -/
theorem carry_mark_last (ok : Nat → Bool) (s : State) (u : UserRow) (d : Int)
    (hc : (⟨u.user_id, "carry", d, 8⟩ : SendKey) ∉ s.sends)
    (hne : openYesterday s u.user_id d ≠ []) :
    ∃ pre,
      (do_carry_over ok s u d).log =
        s.log ++ pre ++ [Event.marked ⟨u.user_id, "carry", d, 8⟩] ∧
      (∃ txt, Event.attempt ⟨u.user_id, "carry", d, 8⟩ txt ∈ pre) ∧
      ∀ e ∈ pre, (∃ t, e = Event.inserted t) ∨
        (∃ txt, e = Event.attempt ⟨u.user_id, "carry", d, 8⟩ txt) ∨
        (∃ txt, e = Event.delivered ⟨u.user_id, "carry", d, 8⟩ txt) := by
  obtain ⟨-, -, -, -, -, hl⟩ := carry_shape ok s u d hc
  have he : (openYesterday s u.user_id d).isEmpty = false := by
    cases h2 : openYesterday s u.user_id d with
    | nil => exact absurd h2 hne
    | cons a l => rfl
  refine ⟨(clonesFrom s.nextId u.user_id d (openYesterday s u.user_id d)).map
      Event.inserted ++ carryBlock ok s u d, ?_, ?_, ?_⟩
  · rw [hl]; simp [List.append_assoc]
  · refine ⟨carryMsg (openYesterday s u.user_id d).length,
      List.mem_append_right _ ?_⟩
    simp [carryBlock, he]
  · intro e hm
    rcases List.mem_append.1 hm with hin | hblk
    · obtain ⟨t, -, rfl⟩ := List.mem_map.1 hin
      exact Or.inl ⟨t, rfl⟩
    · rw [carryBlock, he] at hblk
      simp only [Bool.false_eq_true, if_false] at hblk
      rcases List.mem_cons.1 hblk with rfl | hrest
      · exact Or.inr (Or.inl ⟨_, rfl⟩)
      · by_cases hok : ok s.sendSeq
        · rw [if_pos hok] at hrest
          rcases List.mem_cons.1 hrest with rfl | hnil
          · exact Or.inr (Or.inr ⟨_, rfl⟩)
          · exact absurd hnil (List.not_mem_nil _)
        · rw [if_neg hok] at hrest
          exact absurd hrest (List.not_mem_nil _)

/-- Witness for the amended C4 at the concrete example state. -/
theorem carry_mark_last_witness :
    ((⟨1, "carry", 0, 8⟩ : SendKey) ∉ exState.sends) ∧
    openYesterday exState 1 0 ≠ [] ∧
    (∃ pre,
      (do_carry_over okTrue exState ⟨1, "America/New_York"⟩ 0).log =
        exState.log ++ pre ++ [Event.marked ⟨1, "carry", 0, 8⟩] ∧
      (∃ txt, Event.attempt ⟨1, "carry", 0, 8⟩ txt ∈ pre) ∧
      ∀ e ∈ pre, (∃ t, e = Event.inserted t) ∨
        (∃ txt, e = Event.attempt ⟨1, "carry", 0, 8⟩ txt) ∨
        (∃ txt, e = Event.delivered ⟨1, "carry", 0, 8⟩ txt)) :=
  ⟨by decide, by decide,
    carry_mark_last okTrue exState ⟨1, "America/New_York"⟩ 0 (by decide) (by decide)⟩

/-! ### C3 -/

/-- Counterexample to C3: with the always-failing notifier, one user at
prompt hour 13: the prompt delivery attempt is made and fails (no
delivered event), yet the prompt key IS written to the send ledger, and a
second tick in the same logical hour changes nothing — the failed send is
not retried. -/
theorem failure_still_marks_counterexample :
    (⟨1, "prompt", 0, 13⟩ : SendKey) ∈ (hourly_tick okFalse exClock13 exState).sends ∧
    countEv (evAtt ⟨1, "prompt", 0, 13⟩) (hourly_tick okFalse exClock13 exState).log = 1 ∧
    countEv (evDel ⟨1, "prompt", 0, 13⟩) (hourly_tick okFalse exClock13 exState).log = 0 ∧
    hourly_tick okFalse exClock13 (hourly_tick okFalse exClock13 exState) =
      hourly_tick okFalse exClock13 exState := by
  decide

/-- Two states agreeing on everything except the ghost trace. -/
def coreEq (s t : State) : Prop :=
  s.users = t.users ∧ s.tasks = t.tasks ∧ s.nextId = t.nextId ∧
  s.sends = t.sends ∧ s.sendSeq = t.sendSeq

theorem coreEq_send (ok ok2 : Nat → Bool) (s t : State) (k : SendKey) (txt txt2 : String)
    (h : coreEq s t) : coreEq (send_message_job ok s k txt) (send_message_job ok2 t k txt2) := by
  obtain ⟨h1, h2, h3, h4, h5⟩ := h
  exact ⟨h1, h2, h3, h4, by simp [send_message_job, h5]⟩

theorem coreEq_mark (s t : State) (uid : Nat) (kind : String) (d : Int) (hr : Nat)
    (h : coreEq s t) : coreEq (mark_sent s uid kind d hr) (mark_sent t uid kind d hr) := by
  obtain ⟨h1, h2, h3, h4, h5⟩ := h
  refine ⟨h1, h2, h3, ?_, h5⟩
  simp only [mark_sent]
  rw [h4]

theorem coreEq_carry (ok ok2 : Nat → Bool) (s t : State) (u : UserRow) (d : Int)
    (h : coreEq s t) : coreEq (do_carry_over ok s u d) (do_carry_over ok2 t u d) := by
  obtain ⟨h1, h2, h3, h4, h5⟩ := h
  have hoy : openYesterday s u.user_id d = openYesterday t u.user_id d := by
    simp [openYesterday, h2]
  by_cases hc : (⟨u.user_id, "carry", d, 8⟩ : SendKey) ∈ s.sends
  · rw [carry_sent ok s u d hc, carry_sent ok2 t u d (h4 ▸ hc)]
    exact ⟨h1, h2, h3, h4, h5⟩
  · have hct : (⟨u.user_id, "carry", d, 8⟩ : SendKey) ∉ t.sends := h4 ▸ hc
    obtain ⟨su, st, sn, ss, sq, -⟩ := carry_shape ok s u d hc
    obtain ⟨tu, tt, tn, ts, tq, -⟩ := carry_shape ok2 t u d hct
    refine ⟨?_, ?_, ?_, ?_, ?_⟩
    · rw [su, tu, h1]
    · rw [st, tt, h2, h3, hoy]
    · rw [sn, tn, h3, hoy]
    · rw [ss, ts, h4]
    · rw [sq, tq, h5, hoy]

theorem coreEq_digest (ok ok2 : Nat → Bool) (s t : State) (u : UserRow) (d : Int)
    (hr : Nat) (h : coreEq s t) :
    coreEq (do_daily_digest ok s u d hr) (do_daily_digest ok2 t u d hr) := by
  by_cases h8 : hr = 8
  · subst h8
    by_cases hd : (⟨u.user_id, "digest", d, 8⟩ : SendKey) ∈ s.sends
    · rw [digest_sent ok s u d 8 hd, digest_sent ok2 t u d 8 (h.2.2.2.1 ▸ hd)]
      exact h
    · rw [digest_shape ok s u d hd, digest_shape ok2 t u d (h.2.2.2.1 ▸ hd)]
      exact coreEq_mark _ _ _ _ _ _
        (coreEq_send _ _ _ _ _ _ _ (coreEq_carry ok ok2 s t u d h))
  · rw [digest_skip_hour ok s u d hr h8, digest_skip_hour ok2 t u d hr h8]
    exact h

theorem coreEq_prompt (ok ok2 : Nat → Bool) (s t : State) (u : UserRow) (d : Int)
    (hr : Nat) (h : coreEq s t) :
    coreEq (do_tomorrow_prompt ok s u d hr) (do_tomorrow_prompt ok2 t u d hr) := by
  by_cases hh : hr ∈ [10, 13, 16, 19, 22]
  · by_cases hp : (⟨u.user_id, "prompt", d, hr⟩ : SendKey) ∈ s.sends
    · rw [prompt_sent ok s u d hr hp, prompt_sent ok2 t u d hr (h.2.2.2.1 ▸ hp)]
      exact h
    · rw [prompt_shape ok s u d hr hh hp,
        prompt_shape ok2 t u d hr hh (h.2.2.2.1 ▸ hp)]
      exact coreEq_mark _ _ _ _ _ _ (coreEq_send _ _ _ _ _ _ _ h)
  · rw [prompt_skip_hour ok s u d hr hh, prompt_skip_hour ok2 t u d hr hh]
    exact h

theorem coreEq_processUser (ok ok2 : Nat → Bool) (clock : String → Int × Nat)
    (s t : State) (u : UserRow) (h : coreEq s t) :
    coreEq (processUser ok clock s u) (processUser ok2 clock t u) :=
  coreEq_prompt ok ok2 _ _ u _ _ (coreEq_digest ok ok2 s t u _ _ h)

theorem coreEq_foldl (ok ok2 : Nat → Bool) (clock : String → Int × Nat) :
    ∀ (us : List UserRow) (s t : State), coreEq s t →
      coreEq (us.foldl (processUser ok clock) s) (us.foldl (processUser ok2 clock) t)
  | [], _, _, h => h
  | u :: us, s, t, h =>
    coreEq_foldl ok ok2 clock us _ _ (coreEq_processUser ok ok2 clock s t u h)

theorem coreEq_tick (ok ok2 : Nat → Bool) (clock : String → Int × Nat) (s t : State)
    (h : coreEq s t) : coreEq (hourly_tick ok clock s) (hourly_tick ok2 clock t) := by
  rw [hourly_tick, hourly_tick, ← h.1]
  exact coreEq_foldl ok ok2 clock s.users s t h

theorem coreEq_run_ticks (ok ok2 : Nat → Bool) (clock : String → Int × Nat) :
    ∀ (n : Nat) (s t : State), coreEq s t →
      coreEq (run_ticks ok clock n s) (run_ticks ok2 clock n t)
  | 0, _, _, h => h
  | n + 1, s, t, h =>
    coreEq_run_ticks ok ok2 clock n _ _ (coreEq_tick ok ok2 clock s t h)

/-- C3 amended: a notifier delivery failure during a scheduled send does
NOT prevent the ledger write — the exception is swallowed inside
`send_message_job`, and `mark_sent` runs regardless, so the ledger (and
the whole task store and scheduling state) after any number of ticks is
exactly what it would have been with a never-failing notifier; in
particular the failed send is not retried by later ticks in the same
logical hour. -/
theorem ledger_independent_of_delivery (ok : Nat → Bool) (clock : String → Int × Nat)
    (n : Nat) (s : State) :
    (run_ticks ok clock n s).sends = (run_ticks okTrue clock n s).sends ∧
    (run_ticks ok clock n s).tasks = (run_ticks okTrue clock n s).tasks := by
  have h := coreEq_run_ticks ok okTrue clock n s s ⟨rfl, rfl, rfl, rfl, rfl⟩
  exact ⟨h.2.2.2.1, h.2.1⟩

/-! ### C6 -/

theorem strLtb_irrefl : ∀ l, strLtb l l = false
  | [] => rfl
  | a :: as => by simp [strLtb, strLtb_irrefl as]

theorem strLtb_trichotomy : ∀ x y : List Char, strLtb x y = true ∨ x = y ∨ strLtb y x = true
  | [], [] => Or.inr (Or.inl rfl)
  | [], _ :: _ => Or.inl rfl
  | _ :: _, [] => Or.inr (Or.inr rfl)
  | a :: as, b :: bs => by
    rcases lt_trichotomy a b with h | h | h
    · exact Or.inl (by simp [strLtb, h])
    · subst h
      rcases strLtb_trichotomy as bs with h2 | h2 | h2
      · exact Or.inl (by simp [strLtb, h2])
      · exact Or.inr (Or.inl (by rw [h2]))
      · exact Or.inr (Or.inr (by simp [strLtb, h2]))
    · exact Or.inr (Or.inr (by simp [strLtb, h]))

theorem strLtb_trans : ∀ x y z : List Char,
    strLtb x y = true → strLtb y z = true → strLtb x z = true
  | [], [], _, h1, _ => by simp [strLtb] at h1
  | [], _ :: _, [], _, h2 => by simp [strLtb] at h2
  | [], _ :: _, _ :: _, _, _ => rfl
  | _ :: _, [], _, h1, _ => by simp [strLtb] at h1
  | _ :: _, _ :: _, [], _, h2 => by simp [strLtb] at h2
  | a :: as, b :: bs, c :: cs, h1, h2 => by
    simp only [strLtb] at h1 h2 ⊢
    by_cases hab : a < b
    · by_cases hbc : b < c
      · simp [lt_trans hab hbc]
      · by_cases hcb : c < b
        · simp [hbc, hcb] at h2
        · have : b = c := le_antisymm (not_lt.1 hcb) (not_lt.1 hbc)
          subst this
          simp [hab]
    · by_cases hba : b < a
      · simp [hab, hba] at h1
      · have : a = b := le_antisymm (not_lt.1 hba) (not_lt.1 hab)
        subst this
        simp only [lt_irrefl, if_false] at h1
        by_cases hbc : a < c
        · simp [hbc]
        · by_cases hcb : c < a
          · simp [hbc, hcb] at h2
          · have : a = c := le_antisymm (not_lt.1 hcb) (not_lt.1 hbc)
            subst this
            simp only [lt_irrefl, if_false] at h2 ⊢
            exact strLtb_trans as bs cs h1 h2

theorem strLT_irrefl (x : String) : ¬ strLT x x := by
  simp [strLT, strLtb_irrefl]

theorem strLT_trans {x y z : String} (h1 : strLT x y) (h2 : strLT y z) : strLT x z :=
  strLtb_trans x.data y.data z.data h1 h2

theorem strLT_trichotomy (x y : String) : strLT x y ∨ x = y ∨ strLT y x := by
  rcases strLtb_trichotomy x.data y.data with h | h | h
  · exact Or.inl h
  · refine Or.inr (Or.inl ?_)
    cases x with
    | mk dx =>
      cases y with
      | mk dy => exact congrArg String.mk h
  · exact Or.inr (Or.inr h)

instance : IsTotal Task taskLE :=
  ⟨fun a b => by
    unfold taskLE
    rcases Nat.lt_trichotomy (priorityRank a.priority) (priorityRank b.priority) with h | h | h
    · exact Or.inl (Or.inl h)
    · rcases strLT_trichotomy (dueKey a.due_time) (dueKey b.due_time) with h2 | h2 | h2
      · exact Or.inl (Or.inr ⟨h, Or.inl h2⟩)
      · rcases Nat.le_total a.id b.id with h3 | h3
        · exact Or.inl (Or.inr ⟨h, Or.inr ⟨h2, h3⟩⟩)
        · exact Or.inr (Or.inr ⟨h.symm, Or.inr ⟨h2.symm, h3⟩⟩)
      · exact Or.inr (Or.inr ⟨h.symm, Or.inl h2⟩)
    · exact Or.inr (Or.inl h)⟩

instance : IsTrans Task taskLE :=
  ⟨fun a b c hab hbc => by
    unfold taskLE at hab hbc ⊢
    rcases hab with h1 | ⟨e1, h1⟩
    · rcases hbc with h2 | ⟨e2, h2⟩
      · exact Or.inl (h1.trans h2)
      · exact Or.inl (by rw [← e2]; exact h1)
    · rcases hbc with h2 | ⟨e2, h2⟩
      · exact Or.inl (by rw [e1]; exact h2)
      · refine Or.inr ⟨e1.trans e2, ?_⟩
        rcases h1 with h1 | ⟨d1, i1⟩
        · rcases h2 with h2 | ⟨d2, i2⟩
          · exact Or.inl (strLT_trans h1 h2)
          · exact Or.inl (by rw [← d2]; exact h1)
        · rcases h2 with h2 | ⟨d2, i2⟩
          · exact Or.inl (by rw [d1]; exact h2)
          · exact Or.inr ⟨d1.trans d2, i1.trans i2⟩⟩

instance : IsTotal Task idLE :=
  ⟨fun a b => Nat.le_total a.id b.id⟩

instance : IsTrans Task idLE :=
  ⟨fun _ _ _ h1 h2 => Nat.le_trans h1 h2⟩

/-- The claim’s due-time order: an actual time is earlier than a later
time and earlier than a missing one; a missing time is never earlier. -/
def dueLT : Option String → Option String → Prop
  | some x, some y => strLT x y
  | some _, none => True
  | none, _ => False

instance : ∀ o p, Decidable (dueLT o p)
  | some x, some y => inferInstanceAs (Decidable (strLT x y))
  | some _, none => Decidable.isTrue True.intro
  | none, some _ => Decidable.isFalse id
  | none, none => Decidable.isFalse id

/-- The claim’s due-time equality: both missing or both the same time. -/
def dueEQ : Option String → Option String → Prop
  | some x, some y => x = y
  | none, none => True
  | _, _ => False

instance : ∀ o p, Decidable (dueEQ o p)
  | some x, some y => inferInstanceAs (Decidable (x = y))
  | some _, none => Decidable.isFalse id
  | none, some _ => Decidable.isFalse id
  | none, none => Decidable.isTrue True.intro

/-- C6’s claimed ordering between two listed tasks: high before med
before low; within equal priority earlier due_time first, missing
due_time last, insertion order (the id) breaking remaining ties. -/
def claimOrder (a b : Task) : Prop :=
  priorityRank a.priority < priorityRank b.priority ∨
    (priorityRank a.priority = priorityRank b.priority ∧
      (dueLT a.due_time b.due_time ∨ (dueEQ a.due_time b.due_time ∧ a.id < b.id)))

instance (a b : Task) : Decidable (claimOrder a b) := by
  unfold claimOrder; infer_instance

/-- A task with no due time, inserted first. -/
def exTaskA : Task := ⟨1, 7, "a", 0, none, "med", "", "open"⟩

/-- A task whose (unvalidated) due string sorts above the `99:99`
sentinel, inserted second. -/
def exTaskB : Task := ⟨2, 7, "b", 0, some "AA:AA", "med", "", "open"⟩

/-- A state holding only the two tasks above for user 7, day 0. -/
def exStateDue : State := ⟨[], [exTaskA, exTaskB], 3, [], 0, []⟩

/-- Counterexample to C6: the digest/`/list` ordering coalesces a missing
due_time to the string "99:99", so a task whose due string sorts above
that sentinel (here "AA:AA") is listed after the missing-due task — the
missing-due task is not last, refuting the claimed ordering law. -/
theorem ordering_law_counterexample :
    ((tasksFor exStateDue 7 0).map Task.id).Nodup ∧
    digestRows exStateDue 7 0 = [exTaskA, exTaskB] ∧
    ¬ List.Pairwise claimOrder (digestRows exStateDue 7 0) := by
  refine ⟨by decide, by decide, fun h => ?_⟩
  rw [(by decide : digestRows exStateDue 7 0 = [exTaskA, exTaskB])] at h
  exact absurd ((List.pairwise_cons.1 h).1 exTaskB (List.mem_cons_self _ _)) (by decide)

/-- C6 amended: the digest/`/list` ordering law holds for every task list
whose stored due_time strings all sort strictly below the sentinel
"99:99" (true of every valid "HH:MM" time) and whose ids are distinct:
high priority before med before low, then earlier due_time before later,
missing due_time last, and insertion order breaking remaining ties.  (A
due string at or above the sentinel instead sorts together with or after
the missing-due tasks.) -/
theorem ordering_law_amended (s : State) (uid : Nat) (d : Int)
    (hdu : ∀ t ∈ tasksFor s uid d, ∀ v, t.due_time = some v → strLT v "99:99")
    (hnd : ((tasksFor s uid d).map Task.id).Nodup) :
    List.Pairwise claimOrder (digestRows s uid d) := by
  have hperm : List.Perm (digestRows s uid d) (tasksFor s uid d) :=
    List.perm_insertionSort taskLE _
  have hsorted : List.Pairwise taskLE (digestRows s uid d) :=
    List.sorted_insertionSort taskLE _
  have hnd2 : ((digestRows s uid d).map Task.id).Nodup :=
    ((hperm.map Task.id).symm).nodup hnd
  have hpne : List.Pairwise (fun a b : Task => a.id ≠ b.id) (digestRows s uid d) :=
    List.pairwise_map.1 hnd2
  refine (hsorted.and hpne).imp_of_mem ?_
  intro a b hma hmb hr
  obtain ⟨hle, hne⟩ := hr
  have hduA := hdu a (hperm.subset hma)
  have hduB := hdu b (hperm.subset hmb)
  rcases hle with h | ⟨e, h⟩
  · exact Or.inl h
  · refine Or.inr ⟨e, ?_⟩
    rcases h with h | ⟨de, hid⟩
    · cases ha : a.due_time with
      | some x =>
        cases hb : b.due_time with
        | some y =>
          rw [ha, hb] at h
          exact Or.inl (show strLT x y from h)
        | none => exact Or.inl True.intro
      | none =>
        cases hb : b.due_time with
        | some y =>
          rw [ha, hb] at h
          have h2 : strLT "99:99" y := h
          exact absurd (strLT_trans h2 (hduB y hb)) (strLT_irrefl _)
        | none =>
          rw [ha, hb] at h
          have h2 : strLT "99:99" "99:99" := h
          exact absurd h2 (strLT_irrefl _)
    · refine Or.inr ⟨?_, lt_of_le_of_ne hid hne⟩
      cases ha : a.due_time with
      | some x =>
        cases hb : b.due_time with
        | some y =>
          rw [ha, hb] at de
          exact (show x = y from de)
        | none =>
          rw [ha, hb] at de
          have de2 : x = "99:99" := de
          exact absurd (de2 ▸ hduA x ha) (strLT_irrefl _)
      | none =>
        cases hb : b.due_time with
        | some y =>
          rw [ha, hb] at de
          have de2 : y = "99:99" := (show ("99:99" : String) = y from de).symm
          exact absurd (de2 ▸ hduB y hb) (strLT_irrefl _)
        | none => exact True.intro

/-- Witness for the amended C6: two valid due times and a missing one,
mixed priorities. -/
theorem ordering_law_amended_witness :
    (∀ t ∈ tasksFor exState 1 (-1), ∀ v, t.due_time = some v → strLT v "99:99") ∧
    ((tasksFor exState 1 (-1)).map Task.id).Nodup ∧
    List.Pairwise claimOrder (digestRows exState 1 (-1)) :=
  ⟨by decide, by decide,
    ordering_law_amended exState 1 (-1) (by decide) (by decide)⟩

/-! ### C7 -/

/-- C7: invalid-timezone atomicity.  When the timezone string fails
validation, `/tz` returns the fixed error reply and the state — users
(hence the stored timezone), tasks and the send ledger — is completely
unchanged. -/
theorem tz_invalid_atomic (validTz : String → Bool) (s : State) (uid : Nat) (tz : String)
    (hv : validTz tz = false) :
    cmd_tz validTz s uid (some tz) =
      (s, "That timezone isn’t recognized. Try like America/New_York or Asia/Kathmandu") ∧
    (cmd_tz validTz s uid (some tz)).1.users = s.users ∧
    (cmd_tz validTz s uid (some tz)).1.tasks = s.tasks ∧
    (cmd_tz validTz s uid (some tz)).1.sends = s.sends := by
  have h : cmd_tz validTz s uid (some tz) =
      (s, "That timezone isn’t recognized. Try like America/New_York or Asia/Kathmandu") := by
    simp [cmd_tz, hv]
  exact ⟨h, by rw [h], by rw [h], by rw [h]⟩

/-- A toy timezone validator accepting exactly one zone name. -/
def exValidTz : String → Bool := fun t => t == "America/New_York"

/-- Witness for C7 at a concrete invalid zone string. -/
theorem tz_invalid_atomic_witness :
    exValidTz "Not/AZone" = false ∧
    (cmd_tz exValidTz exState 1 (some "Not/AZone") =
      (exState,
        "That timezone isn’t recognized. Try like America/New_York or Asia/Kathmandu") ∧
    (cmd_tz exValidTz exState 1 (some "Not/AZone")).1.users = exState.users ∧
    (cmd_tz exValidTz exState 1 (some "Not/AZone")).1.tasks = exState.tasks ∧
    (cmd_tz exValidTz exState 1 (some "Not/AZone")).1.sends = exState.sends) :=
  ⟨by decide, tz_invalid_atomic exValidTz exState 1 "Not/AZone" (by decide)⟩

/-! ### C8 -/

/-- C8’s claim, instantiated to the observable consequence the spec
promises: if a user’s storage fails during the tick, every OTHER
(non-failing) user is still processed — in particular a user due a
prompt gets their prompt key marked. -/
def isolationClaim (fail ok : Nat → Bool) (clock : String → Int × Nat) (s : State) : Prop :=
  ∀ u ∈ s.users, fail u.user_id = false →
    (clock u.tz).2 ∈ [10, 13, 16, 19, 22] →
    (⟨u.user_id, "prompt", (clock u.tz).1, (clock u.tz).2⟩ : SendKey) ∉ s.sends →
    (⟨u.user_id, "prompt", (clock u.tz).1, (clock u.tz).2⟩ : SendKey) ∈
      (hourly_tickF fail ok clock s).1.sends

instance (fail ok : Nat → Bool) (clock : String → Int × Nat) (s : State) :
    Decidable (isolationClaim fail ok clock s) := by
  unfold isolationClaim; infer_instance

/-- The storage-failure oracle making user 1’s first ledger read raise. -/
def exFail : Nat → Bool := fun n => n == 1

/-- Two users; user 1 (processed first) fails, user 2 is due a prompt. -/
def exStateTwo : State := ⟨[⟨1, "A"⟩, ⟨2, "B"⟩], [], 1, [], 0, []⟩

/-- Counterexample to C8: with user 1’s storage failing, the tick raises
and stops — user 2, although due a prompt (as the non-failing run shows),
is never processed, so the tick does NOT continue with the remaining
users. -/
theorem tick_isolation_counterexample :
    (⟨2, "prompt", 0, 13⟩ : SendKey) ∈ (hourly_tick okTrue exClock13 exStateTwo).sends ∧
    (hourly_tickF exFail okTrue exClock13 exStateTwo).1.sends = [] ∧
    ¬ isolationClaim exFail okTrue exClock13 exStateTwo := by
  decide

/-- C8 amended: a storage failure while processing one user aborts the
WHOLE tick, not just that user’s step: users before the failing one keep
their effects, and the failing user and every user after it are left
unprocessed until the next tick. -/
theorem tick_storage_failure_aborts (fail ok : Nat → Bool) (clock : String → Int × Nat)
    (s : State) (us1 : List UserRow) (u : UserRow) (us2 : List UserRow)
    (h1 : ∀ v ∈ us1, fail v.user_id = false) (h2 : fail u.user_id = true) :
    tickUsersF fail ok clock s (us1 ++ u :: us2) =
      (us1.foldl (processUser ok clock) s, true) := by
  induction us1 generalizing s with
  | nil => simp [tickUsersF, processUserF, h2]
  | cons v vs ih =>
    have hv : fail v.user_id = false := h1 v (List.mem_cons_self _ _)
    simp only [List.cons_append, tickUsersF, processUserF, hv, Bool.false_eq_true,
      if_false, List.foldl_cons]
    exact ih _ (fun w hw => h1 w (List.mem_cons_of_mem _ hw))

/-- Witness for the amended C8: user 2 (processed first) succeeds, user 1
fails, user 3 is skipped. -/
theorem tick_storage_failure_aborts_witness :
    (∀ v ∈ [(⟨2, "B"⟩ : UserRow)], exFail v.user_id = false) ∧
    exFail (1 : Nat) = true ∧
    tickUsersF exFail okTrue exClock13 exStateTwo
        ([⟨2, "B"⟩] ++ (⟨1, "A"⟩ : UserRow) :: [⟨3, "C"⟩]) =
      ([(⟨2, "B"⟩ : UserRow)].foldl (processUser okTrue exClock13) exStateTwo, true) :=
  ⟨by decide, by decide,
    tick_storage_failure_aborts exFail okTrue exClock13 exStateTwo
      [⟨2, "B"⟩] ⟨1, "A"⟩ [⟨3, "C"⟩] (by decide) (by decide)⟩

/-! ### C9 -/

/-- C9: `/done` performs no ownership check.  For a digit-string argument
denoting id `i`: the issuing user `x` always receives the success reply;
any task with id `i` — including one owned by a different user `y` — is
marked done; and when no task has id `i` the store is unchanged but the
reply is still the success message. -/
theorem done_no_ownership (s : State) (x y : Nat) (a : String) (i : Nat) (t : Task)
    (ht : t ∈ s.tasks) (hid : t.id = i) (hown : t.user_id = y) (hxy : x ≠ y)
    (hdata : a.data ≠ []) (hdig : a.data.all Char.isDigit = true)
    (hval : a.data.foldl (fun n c => n * 10 + (c.toNat - 48)) 0 = i) :
    (cmd_done s x (some a)).2 = "Nice! Marked ✅" ∧
    { t with status := "done" } ∈ (cmd_done s x (some a)).1.tasks ∧
    ∀ s2 : State, (∀ t2 ∈ s2.tasks, t2.id ≠ i) →
      (cmd_done s2 x (some a)).1 = s2 ∧ (cmd_done s2 x (some a)).2 = "Nice! Marked ✅" := by
  have hc : a.data ≠ [] ∧ (a.data.all Char.isDigit : Prop) := ⟨hdata, hdig⟩
  refine ⟨?_, ?_, ?_⟩
  · simp [cmd_done, hc]
  · simp only [cmd_done, if_pos hc]
    refine List.mem_map.2 ⟨t, ht, ?_⟩
    rw [hval, if_pos hid]
  · intro s2 hnone
    constructor
    · simp only [cmd_done, if_pos hc]
      have : s2.tasks.map (fun t2 =>
          if t2.id = a.data.foldl (fun n c => n * 10 + (c.toNat - 48)) 0 then
            { t2 with status := "done" } else t2) = s2.tasks := by
        rw [hval]
        have hcg : ∀ t2 ∈ s2.tasks,
            (if t2.id = i then { t2 with status := "done" } else t2) = id t2 :=
          fun t2 ht2 => by rw [if_neg (hnone t2 ht2)]; rfl
        rw [List.map_congr_left hcg, List.map_id]
      rw [this]
    · simp [cmd_done, hc]

/-- A task owned by user 2, used as the victim of a foreign `/done`. -/
def exTaskOther : Task := ⟨1, 2, "theirs", 0, none, "med", "", "open"⟩

/-- A state holding only user 2’s task. -/
def exStateOther : State := ⟨[], [exTaskOther], 2, [], 0, []⟩

/-- Witness for C9: user 1 issues `/done 1` against user 2’s task. -/
theorem done_no_ownership_witness :
    exTaskOther ∈ exStateOther.tasks ∧ exTaskOther.id = 1 ∧
    exTaskOther.user_id = 2 ∧ (1 : Nat) ≠ 2 ∧
    ("1" : String).data ≠ [] ∧ ("1" : String).data.all Char.isDigit = true ∧
    ("1" : String).data.foldl (fun n c => n * 10 + (c.toNat - 48)) 0 = 1 ∧
    ((cmd_done exStateOther 1 (some "1")).2 = "Nice! Marked ✅" ∧
    { exTaskOther with status := "done" } ∈ (cmd_done exStateOther 1 (some "1")).1.tasks ∧
    ∀ s2 : State, (∀ t2 ∈ s2.tasks, t2.id ≠ 1) →
      (cmd_done s2 1 (some "1")).1 = s2 ∧ (cmd_done s2 1 (some "1")).2 = "Nice! Marked ✅") :=
  ⟨by decide, by decide, by decide, by decide, by decide, by decide, by decide,
    done_no_ownership exStateOther 1 2 "1" 1 exTaskOther (by decide) (by decide)
      (by decide) (by decide) (by decide) (by decide) (by decide)⟩

/-! ### C10 -/

theorem parseStep_keeps_priority (acc : List String × List String × String × Option String)
    (tok : String) (hne : tok.data.head? ≠ some '!') :
    (parseStep acc tok).2.2.1 = acc.2.2.1 := by
  by_cases h1 : tok.data.head? = some '#' <;>
    by_cases h3 : tok.data.head? = some '@' <;>
    simp [parseStep, h1, hne, h3]

theorem foldl_keeps_priority :
    ∀ (post : List String) (acc : List String × List String × String × Option String),
      (∀ tok ∈ post, tok.data.head? ≠ some '!') →
      (post.foldl parseStep acc).2.2.1 = acc.2.2.1
  | [], _, _ => rfl
  | tok :: rest, acc, h => by
    rw [List.foldl_cons,
      foldl_keeps_priority rest _ (fun w hw => h w (List.mem_cons_of_mem _ hw)),
      parseStep_keeps_priority acc tok (h tok (List.mem_cons_self _ _))]

theorem parse_priority_verbatim (pre post : List String) (tok : String)
    (h1 : tok.data.head? = some '!') (h4 : ∀ w ∈ post, w.data.head? ≠ some '!') :
    (parse_task_args (pre ++ tok :: post)).2.2.1 = strTail tok := by
  show ((pre ++ tok :: post).foldl parseStep ([], [], "med", none)).2.2.1 = strTail tok
  rw [List.foldl_append, List.foldl_cons, foldl_keeps_priority post _ h4]
  have hsharp : tok.data.head? ≠ some '#' := by rw [h1]; decide
  simp [parseStep, hsharp, h1]

/-- C10: priority tokens are not validated.  When the last `!`-token of
an `/add` (or `/tomorrow`) argument list is `!s`, the string `s` is
stored verbatim as the new task’s priority, and any priority other than
"high" or "med" is ranked 2, together with "low", by the list ordering. -/
theorem priority_unvalidated (dtz : String) (s : State) (uid : Nat) (today : Int)
    (pre post : List String) (tok p : String)
    (h1 : tok.data.head? = some '!') (h2 : strTail tok = p)
    (h4 : ∀ w ∈ post, w.data.head? ≠ some '!')
    (h5 : (parse_task_args (pre ++ tok :: post)).1 ≠ "")
    (h6 : p ≠ "high") (h7 : p ≠ "med") :
    (parse_task_args (pre ++ tok :: post)).2.2.1 = p ∧
    (∃ row : Task,
      (cmd_add dtz s uid today (pre ++ tok :: post)).1.tasks =
        (get_user dtz s uid).1.tasks ++ [row] ∧ row.priority = p) ∧
    (∃ row : Task,
      (cmd_tomorrow dtz s uid today (pre ++ tok :: post)).1.tasks =
        (get_user dtz s uid).1.tasks ++ [row] ∧ row.priority = p) ∧
    priorityRank p = 2 ∧ priorityRank p = priorityRank "low" := by
  have hp : (parse_task_args (pre ++ tok :: post)).2.2.1 = p := by
    rw [parse_priority_verbatim pre post tok h1 h4, h2]
  have hnempty : (pre ++ tok :: post).isEmpty = false := by
    cases pre <;> rfl
  refine ⟨hp, ?_, ?_, ?_, ?_⟩
  · refine ⟨⟨(get_user dtz s uid).1.nextId, uid, (parse_task_args (pre ++ tok :: post)).1,
      today, (parse_task_args (pre ++ tok :: post)).2.2.2,
      (parse_task_args (pre ++ tok :: post)).2.2.1,
      (parse_task_args (pre ++ tok :: post)).2.1, "open"⟩, ?_, hp⟩
    simp [cmd_add, hnempty, h5]
  · refine ⟨⟨(get_user dtz s uid).1.nextId, uid, (parse_task_args (pre ++ tok :: post)).1,
      today + 1, (parse_task_args (pre ++ tok :: post)).2.2.2,
      (parse_task_args (pre ++ tok :: post)).2.2.1,
      (parse_task_args (pre ++ tok :: post)).2.1, "open"⟩, ?_, hp⟩
    simp [cmd_tomorrow, hnempty, h5]
  · simp [priorityRank, h6, h7]
  · simp [priorityRank, h6, h7]

/-- Witness for C10: `/add Pay rent !urgent #home` stores priority
"urgent" verbatim, ranked with "low". -/
theorem priority_unvalidated_witness :
    ("!urgent" : String).data.head? = some '!' ∧
    strTail "!urgent" = "urgent" ∧
    (∀ w ∈ (["#home"] : List String), w.data.head? ≠ some '!') ∧
    (parse_task_args (["Pay", "rent"] ++ "!urgent" :: ["#home"])).1 ≠ "" ∧
    ("urgent" : String) ≠ "high" ∧ ("urgent" : String) ≠ "med" ∧
    ((parse_task_args (["Pay", "rent"] ++ "!urgent" :: ["#home"])).2.2.1 = "urgent" ∧
    (∃ row : Task,
      (cmd_add "UTC" exState 1 0 (["Pay", "rent"] ++ "!urgent" :: ["#home"])).1.tasks =
        (get_user "UTC" exState 1).1.tasks ++ [row] ∧ row.priority = "urgent") ∧
    (∃ row : Task,
      (cmd_tomorrow "UTC" exState 1 0 (["Pay", "rent"] ++ "!urgent" :: ["#home"])).1.tasks =
        (get_user "UTC" exState 1).1.tasks ++ [row] ∧ row.priority = "urgent") ∧
    priorityRank "urgent" = 2 ∧ priorityRank "urgent" = priorityRank "low") :=
  ⟨by decide, by decide, by decide, by decide, by decide, by decide,
    priority_unvalidated "UTC" exState 1 0 ["Pay", "rent"] ["#home"] "!urgent" "urgent"
      (by decide) (by decide) (by decide) (by decide) (by decide) (by decide)⟩

end Bot
